import Mathlib

/-!
Verification development for the test-output parsing core of the
`UI_Interface` repository.

We shallowly embed the two parsing variants of the repository:

* `RunTest.sanitizeString` and `RunTest.parseTestResults` from
  `src/app/api/run-test/route.ts` (lines 16-122), and
* `ListTests.parseTestResults` from `src/unnamed/part_003`
  (the `--reporter=list` output parser; the repository duplicates it,
  with the variant also reachable from `src/UI/pages/api/list-tests.ts`).

JavaScript strings are modelled as lists of Unicode scalar values
(`Str := List Char`); none of the inputs exercised below involves lone
surrogates, so this is faithful.  The three regular expressions that the
source applies per line are embedded as explicit token lists interpreted
by a small backtracking matcher (`matchToks` / `reMatch`) implementing
JavaScript regexp semantics for exactly the constructs those patterns
use: literal characters, lazy `(.*?)` groups, greedy `(\d+)` / `[\d.]+` /
`\s+` classes, the one optional group `(?:\((.*?)\))?`, and the `$`
anchor (end of input: the matched lines come from `split('\n')` and thus
contain no newline).  `String.prototype.match` returns the leftmost
match, which `reMatch` reproduces by trying start positions left to
right.
-/

/-- JavaScript strings, modelled as sequences of Unicode scalar values. -/
abbrev Str := List Char

/-- Code point of a character (JS code-unit value for the BMP characters
used throughout this development). -/
def cp (c : Char) : Nat := c.toNat

/-- `hasSub needle hay` models JavaScript `hay.includes(needle)`:
some split of `hay` has `needle` as the start of its suffix. -/
def hasSub (n : Str) : Str → Bool
  | [] => n.isEmpty
  | c :: t => n.isPrefixOf (c :: t) || hasSub n t

/-- JavaScript `str.split('\n')`: `""` yields `[""]`, a trailing
newline yields a trailing empty line. -/
def splitNl : Str → List Str
  | [] => [[]]
  | c :: rest =>
      if c = '\n' then [] :: splitNl rest
      else (c :: (splitNl rest).headD []) :: (splitNl rest).tail

/-- The `\s` / `WhiteSpace ∪ LineTerminator` character set of JavaScript
(used by `String.prototype.trim` and the `\s` regexp class). -/
def jsWs (c : Char) : Bool :=
  cp c == 0x9 || cp c == 0xA || cp c == 0xB || cp c == 0xC || cp c == 0xD ||
  cp c == 0x20 || cp c == 0xA0 || cp c == 0x1680 ||
  (0x2000 ≤ cp c && cp c ≤ 0x200A) ||
  cp c == 0x2028 || cp c == 0x2029 || cp c == 0x202F || cp c == 0x205F ||
  cp c == 0x3000 || cp c == 0xFEFF

/-- JavaScript `str.trim()`. -/
def jsTrim (s : Str) : Str :=
  ((s.dropWhile jsWs).reverse.dropWhile jsWs).reverse

/-- Per-scalar model of `String.prototype.toLowerCase`.  It is exact on
ASCII; the only substrings the source searches in lowercased text
("failed", "error", "timeout") are ASCII. -/
def lowerChar (c : Char) : Char :=
  if 65 ≤ cp c ∧ cp c ≤ 90 then Char.ofNat (cp c + 32) else c

/-- JavaScript `str.toLowerCase()` (per-scalar model). -/
def jsToLower (s : Str) : Str := s.map lowerChar

/-- Node `path.basename` (POSIX rules: strip trailing `/` separators,
then keep the part after the last remaining `/`; an empty or all-slash
path yields `""`).  The inputs exercised by the claims
("tests/a.spec.ts" and the like) contain no backslashes, where the
POSIX and Windows flavours agree. -/
def basename (p : Str) : Str :=
  let trimmed := (p.reverse.dropWhile (fun c => c == '/')).reverse
  (trimmed.reverse.takeWhile (fun c => c != '/')).reverse

/-- The regexp `.` (dot, no `s` flag): any character except a
LineTerminator. -/
def dotP (c : Char) : Bool :=
  !(cp c == 0xA || cp c == 0xD || cp c == 0x2028 || cp c == 0x2029)

/-- The regexp class `[\d.]`. -/
def isDigitDot (c : Char) : Bool := c.isDigit || c == '.'

/-- Length of the maximal prefix of `s` whose characters satisfy `p`
(the most a `p*` / `p+` quantifier can consume). -/
def maxRun (p : Char → Bool) : Str → Nat
  | [] => 0
  | c :: s => if p c then maxRun p s + 1 else 0

/-- `0, 1, …, n`: the order in which a lazy quantifier tries lengths. -/
def ascList (n : Nat) : List Nat := List.range (n + 1)

/-- `n, n-1, …, 1`: the order in which a greedy `+` tries lengths. -/
def descList (n : Nat) : List Nat := (List.range n).map (fun i => n - i)

/-- Tokens for the three regexps of the source.  Capturing tokens
contribute one entry (in group order) to the capture list. -/
inductive Tok where
  /-- a literal character -/
  | lit (c : Char)
  /-- a literal character sequence -/
  | litseq (cs : Str)
  /-- a single-character class, capturing: `([✓✘-])` -/
  | cls1 (p : Char → Bool)
  /-- a lazy star over a class, capturing: `(.*?)` -/
  | lazyStar (p : Char → Bool)
  /-- a greedy plus over a class: `(\d+)` / `\s+` / `\d+` -/
  | clsPlus (p : Char → Bool) (cap : Bool)
  /-- the capturing group `([\d.]+m?s)` of the duration regexp -/
  | durGrp
  /-- the optional group `(?:\((.*?)\))?` (greedy, inner capture) -/
  | optDur
  /-- the `$` anchor (no `m` flag; input lines contain no newline) -/
  | eos

/-- Backtracking matcher: try to match the token list at the start of
`s` (the match may end before the end of `s` unless `eos` is present),
returning the captures in group order.  Alternatives are tried in the
JavaScript order: lazy quantifiers shortest first, greedy ones longest
first, an optional group with the group present first. -/
def matchToks : List Tok → Str → Option (List (Option Str))
  | [], _ => some []
  | Tok.eos :: ts, s => if s.isEmpty then matchToks ts s else none
  | Tok.lit _ :: _, [] => none
  | Tok.lit c :: ts, c' :: s => if c' == c then matchToks ts s else none
  | Tok.litseq cs :: ts, s =>
      if cs.isPrefixOf s then matchToks ts (s.drop cs.length) else none
  | Tok.cls1 _ :: _, [] => none
  | Tok.cls1 p :: ts, c :: s =>
      if p c then (matchToks ts s).map (fun caps => some [c] :: caps) else none
  | Tok.lazyStar p :: ts, s =>
      (ascList (maxRun p s)).findSome? (fun k =>
        (matchToks ts (s.drop k)).map (fun caps => some (s.take k) :: caps))
  | Tok.clsPlus p cap :: ts, s =>
      (descList (maxRun p s)).findSome? (fun k =>
        (matchToks ts (s.drop k)).map (fun caps =>
          if cap then some (s.take k) :: caps else caps))
  | Tok.durGrp :: ts, s =>
      (descList (maxRun isDigitDot s)).findSome? (fun k =>
        let base := s.take k
        let t := s.drop k
        (match t with
         | 'm' :: 's' :: t2 =>
             (matchToks ts t2).map (fun caps => some (base ++ ['m', 's']) :: caps)
         | _ => none).orElse (fun _ =>
          match t with
          | 's' :: t2 =>
              (matchToks ts t2).map (fun caps => some (base ++ ['s']) :: caps)
          | _ => none))
  | Tok.optDur :: ts, s =>
      (match s with
       | '(' :: s1 =>
           (ascList (maxRun dotP s1)).findSome? (fun k =>
             match s1.drop k with
             | ')' :: s2 =>
                 (matchToks ts s2).map (fun caps => some (s1.take k) :: caps)
             | _ => none)
       | _ => none).orElse (fun _ =>
        (matchToks ts s).map (fun caps => none :: caps))

/-- All suffixes of `s`, longest (start position 0) first. -/
def suffixes : Str → List Str
  | [] => [[]]
  | c :: s => (c :: s) :: suffixes s

/-- `s.match(re)` for an unanchored regexp: the leftmost match, with its
capture list. -/
def reMatch (ts : List Tok) (s : Str) : Option (List (Option Str)) :=
  (suffixes s).findSome? (matchToks ts)

/-- Capture group access after a successful match (the groups read by
the source are never `undefined` except the optional duration group,
which the source reads through `duration || '0ms'`). -/
def getCap (caps : List (Option Str)) (i : Nat) : Str :=
  (caps.getD i none).getD []

namespace RunTest

/-- The status union type of `src/app/api/run-test/route.ts`:
`'passed' | 'failed' | 'skipped' | 'timedOut'`. -/
inductive Status where
  | passed
  | failed
  | skipped
  | timedOut
deriving DecidableEq

/-- `TestResult` of `src/app/api/run-test/route.ts` (lines 6-14):
optional fields are `Option`-valued (`undefined` ↦ `none`). -/
structure TestResult where
  file : Str
  testName : Str
  status : Status
  duration : Str
  error : Option Str
  retries : Option Nat
  browserName : Option Str
deriving DecidableEq

/-- `sanitizeString` (route.ts lines 16-19):
`str.replace(/\u0000/g, '')` followed by
`.replace(/[\u0000-\u0008\u000B-\u000C\u000E-\u001F\u007F-\u009F]/g, '')`.
A global replace-by-empty of a one-character class is a filter. -/
def sanitizeString (s : Str) : Str :=
  (s.filter (fun c => !(cp c == 0))).filter (fun c =>
    !((cp c ≤ 0x8) || (0xB ≤ cp c && cp c ≤ 0xC) ||
      (0xE ≤ cp c && cp c ≤ 0x1F) || (0x7F ≤ cp c && cp c ≤ 0x9F)))

/-- The combined keep-predicate of the two replaces in `sanitizeString`. -/
def sanKeep (c : Char) : Bool :=
  !(cp c == 0) &&
  !((cp c ≤ 0x8) || (0xB ≤ cp c && cp c ≤ 0xC) ||
    (0xE ≤ cp c && cp c ≤ 0x1F) || (0x7F ≤ cp c && cp c ≤ 0x9F))

/-- The test-start regexp of route.ts line 49:
`/\[(.*?)\] \[(.*?)\] › (.*?):(\d+):(\d+) › (.*?)$/`.
Captures, in order: progress, browser, file, line, col, testName. -/
def testStartToks : List Tok :=
  [Tok.lit '[', Tok.lazyStar dotP, Tok.lit ']', Tok.lit ' ',
   Tok.lit '[', Tok.lazyStar dotP, Tok.lit ']', Tok.lit ' ',
   Tok.lit '›', Tok.lit ' ',
   Tok.lazyStar dotP, Tok.lit ':', Tok.clsPlus Char.isDigit true,
   Tok.lit ':', Tok.clsPlus Char.isDigit true,
   Tok.lit ' ', Tok.lit '›', Tok.lit ' ',
   Tok.lazyStar dotP, Tok.eos]

/-- The duration regexp of route.ts line 76: `/\(([\d.]+m?s)\)/`. -/
def durToks : List Tok :=
  [Tok.lit '(', Tok.durGrp, Tok.lit ')']

/-- The fixed message assigned on a timeout line (route.ts line 92). -/
def timeoutMsg : Str :=
  "Test execution timed out (as configured in Playwright)".toList

/-- The record opened by a test-start match (route.ts lines 56-64):
`const [_, progress, browser, file, _line, _col, testName] = testStartMatch`. -/
def mkStartRecord (caps : List (Option Str)) : TestResult :=
  { file := basename (getCap caps 2)
    testName := jsTrim (getCap caps 5)
    status := Status.passed
    duration := "0ms".toList
    error := none
    retries := some 0
    browserName := some (getCap caps 1) }

/-- The mutable scan state of `parseTestResults`: the committed results,
the accumulated error buffer, and the open record. -/
structure ScanSt where
  results : List TestResult
  currentError : Str
  currentTest : Option TestResult
deriving DecidableEq

/-- One iteration of the `for (const line of lines)` loop of
`parseTestResults` (route.ts lines 47-102), with the branch order of the
source: test-start, retry, duration, error fragment, timeout, skip. -/
def lineStep (st : ScanSt) (line : Str) : ScanSt :=
  match reMatch testStartToks line with
  | some caps =>
      { results :=
          match st.currentTest with
          | some t => st.results ++ [t]
          | none => st.results
        currentError := []
        currentTest := some (mkStartRecord caps) }
  | none =>
      if hasSub "retry #".toList line && st.currentTest.isSome then
        { st with currentTest := st.currentTest.map (fun t =>
            { t with retries := some (t.retries.getD 0 + 1) }) }
      else
        match reMatch durToks line, st.currentTest with
        | some dcaps, some t =>
            { st with currentTest := some { t with duration := getCap dcaps 0 } }
        | _, _ =>
            match st.currentTest with
            | some t =>
                if hasSub "Error:".toList line || hasSub "expect(".toList line ||
                    !st.currentError.isEmpty then
                  let ce := st.currentError ++ jsTrim line ++ ['\n']
                  { st with
                    currentError := ce
                    currentTest := some { t with status := Status.failed
                                                 error := some (jsTrim ce) } }
                else if hasSub "Timed out".toList line then
                  { st with currentTest := some { t with status := Status.timedOut
                                                         error := some timeoutMsg } }
                else if hasSub "skipped".toList line then
                  { st with currentTest := some { t with status := Status.skipped } }
                else st
            | none => st

/-- Result of one parse call: `{ passed, results }`. -/
structure RunResult where
  passed : Bool
  results : List TestResult
deriving DecidableEq

/-- The heuristic presence check of route.ts lines 30-37
(`lines.some(line => line.includes('test') || ...)`). -/
def hasTestOutput (lines : List Str) : Bool :=
  lines.any (fun line =>
    hasSub "test".toList line || hasSub "describe".toList line ||
    hasSub "expect".toList line || hasSub "passed".toList line ||
    hasSub "failed".toList line)

/-- `parseTestResults` of `src/app/api/run-test/route.ts` (lines 21-122). -/
def parseTestResults (output : Str) : RunResult :=
  let sanitizedOutput := sanitizeString output
  let lines := splitNl sanitizedOutput
  if hasTestOutput lines then
    let passed :=
      !hasSub "failed".toList (jsToLower sanitizedOutput) &&
      !hasSub "error".toList (jsToLower sanitizedOutput) &&
      !hasSub "timeout".toList (jsToLower sanitizedOutput)
    let fin := lines.foldl lineStep ⟨[], [], none⟩
    let results :=
      match fin.currentTest with
      | some t => fin.results ++ [t]
      | none => fin.results
    if results.isEmpty then
      { passed := passed
        results := [{ file := []
                      testName := "Test Execution".toList
                      status := if passed then Status.passed else Status.failed
                      duration := "0ms".toList
                      error := if fin.currentError.isEmpty then none
                               else some fin.currentError
                      retries := none
                      browserName := none }] }
    else
      { passed := passed, results := results }
  else
    -- `passed` keeps its initial value `false`, the loop is not run, and
    -- the generic-record branch requires `hasTestOutput`.
    { passed := false, results := [] }

end RunTest

namespace ListTests

/-- The status union type of `src/unnamed/part_003`:
`'pending' | 'running' | 'passed' | 'failed'` (note: no `skipped`). -/
inductive TStatus where
  | pending
  | running
  | passed
  | failed
deriving DecidableEq

/-- `TestResult` of `src/unnamed/part_003`. -/
structure TestResult where
  file : Str
  testName : Str
  status : TStatus
  duration : Str
  error : Option Str
deriving DecidableEq

/-- Result of one parse call: `{ passed, results }`. -/
structure RunResult where
  passed : Bool
  results : List TestResult
deriving DecidableEq

/-- The summary-line regexp of part_003 line 21:
`/\s+([✓✘-])\s+\d+\s+\[chromium\]\s+›\s+(.*?):(\d+):(\d+)\s+›\s+(.*?)\s+(?:\((.*?)\))?$/`.
Captures, in order: status glyph, file path, line, col, testName,
optional duration. -/
def testLineToks : List Tok :=
  [Tok.clsPlus jsWs false, Tok.cls1 (fun c => c == '✓' || c == '✘' || c == '-'),
   Tok.clsPlus jsWs false, Tok.clsPlus Char.isDigit false,
   Tok.clsPlus jsWs false, Tok.litseq "[chromium]".toList,
   Tok.clsPlus jsWs false, Tok.lit '›', Tok.clsPlus jsWs false,
   Tok.lazyStar dotP, Tok.lit ':', Tok.clsPlus Char.isDigit true,
   Tok.lit ':', Tok.clsPlus Char.isDigit true,
   Tok.clsPlus jsWs false, Tok.lit '›', Tok.clsPlus jsWs false,
   Tok.lazyStar dotP, Tok.clsPlus jsWs false, Tok.optDur, Tok.eos]

/-- The `switch (status)` of part_003 lines 28-42, on the captured
glyph string: `'✓'` ↦ passed, `'✘'` ↦ failed, `'-'` ↦ pending,
default ↦ failed. -/
def glyphStatus (g : Str) : TStatus :=
  if g == "✓".toList then TStatus.passed
  else if g == "✘".toList then TStatus.failed
  else if g == "-".toList then TStatus.pending
  else TStatus.failed

/-- The update of the `passed` flag performed by the same `switch`:
it is cleared in the `'✘'` and `default` cases. -/
def glyphPassed (g : Str) (p : Bool) : Bool :=
  if g == "✓".toList || g == "-".toList then p else false

/-- `duration || '0ms'` (an `undefined` or empty capture is falsy). -/
def durOr (d : Option Str) : Str :=
  match d with
  | some l => if l.isEmpty then "0ms".toList else l
  | none => "0ms".toList

/-- One iteration of the `for (const line of lines)` loop of part_003
lines 23-52: a matching line immediately pushes a completed record. -/
def lineStep (acc : List TestResult × Bool) (line : Str) :
    List TestResult × Bool :=
  match reMatch testLineToks line with
  | some caps =>
      (acc.1 ++ [{ file := basename (jsTrim (getCap caps 1))
                   testName := jsTrim (getCap caps 4)
                   status := glyphStatus (getCap caps 0)
                   duration := durOr (caps.getD 5 none)
                   error := none }],
       glyphPassed (getCap caps 0) acc.2)
  | none => acc

/-- `parseTestResults` of `src/unnamed/part_003` (lines 15-67): no
sanitization, `passed` starts `true`, and an unmatched output containing
"failed" yields one synthetic failed record. -/
def parseTestResults (output : Str) : RunResult :=
  let lines := splitNl output
  let acc := lines.foldl lineStep ([], true)
  if acc.1.isEmpty && hasSub "failed".toList output then
    { passed := false
      results := [{ file := []
                    testName := "Test Execution".toList
                    status := TStatus.failed
                    duration := "0ms".toList
                    error := some output }] }
  else
    { passed := acc.2, results := acc.1 }

end ListTests

/-! ### Spec-side definitions

The following definitions follow the *spec's words* (not the source);
they exist to be compared with the source-derived definitions above. -/

/-- Following the spec (§4.4): "the raw text contains any of `test`,
`describe`, `expect`, `passed`, `failed` as substrings — case sensitive
literal check". -/
def specHeuristicFired (t : Str) : Bool :=
  hasSub "test".toList t || hasSub "describe".toList t ||
  hasSub "expect".toList t || hasSub "passed".toList t ||
  hasSub "failed".toList t

/-- Following the spec (§4.4): "`overallPassed` = true only if the raw
output contains no case-insensitive occurrence of `failed`, `error`, or
`timeout` as substrings, AND at least one line was classified as
test-related". -/
def specOverallPassed (t : Str) : Bool :=
  (!hasSub "failed".toList (jsToLower t) &&
   !hasSub "error".toList (jsToLower t) &&
   !hasSub "timeout".toList (jsToLower t)) && specHeuristicFired t

/-- Unicode non-character code points: `U+FDD0`–`U+FDEF` and the two
final code points of every plane. -/
def isNonChar (c : Char) : Bool :=
  (0xFDD0 ≤ cp c && cp c ≤ 0xFDEF) ||
  (cp c % 0x10000 == 0xFFFE) || (cp c % 0x10000 == 0xFFFF)

/-- Following the spec (§4.1): the sanitizer contract — "no U+0000, no
other C0 control characters except newline (U+000A), and no C1 control
characters or Unicode non-characters". -/
def specSanitizedOK (s : Str) : Bool :=
  s.all (fun c =>
    !((cp c ≤ 0x1F) && !(cp c == 0xA)) &&
    !((0x80 ≤ cp c) && (cp c ≤ 0x9F)) &&
    !isNonChar c)

/-! ### Helper lemmas -/

/-- The two successive replaces of `sanitizeString` amount to one
filter. -/
theorem sanitize_eq_filter (s : Str) :
    RunTest.sanitizeString s = s.filter RunTest.sanKeep := by
  unfold RunTest.sanitizeString
  rw [List.filter_filter]
  have h : (fun c => (!((cp c ≤ 0x8) || (0xB ≤ cp c && cp c ≤ 0xC) ||
      (0xE ≤ cp c && cp c ≤ 0x1F) || (0x7F ≤ cp c && cp c ≤ 0x9F))) &&
      !(cp c == 0)) = RunTest.sanKeep := by
    funext c
    exact Bool.and_comm _ _
  rw [h]

theorem splitNl_ne_nil (s : Str) : splitNl s ≠ [] := by
  cases s with
  | nil => simp [splitNl]
  | cons c rest =>
      simp only [splitNl]
      split <;> simp

theorem splitNl_single {a : Str} (h : '\n' ∉ a) : splitNl a = [a] := by
  induction a with
  | nil => rfl
  | cons c t ih =>
      have hc : c ≠ '\n' := fun e => h (e ▸ List.mem_cons_self c t)
      have ht : '\n' ∉ t := fun m => h (List.mem_cons_of_mem _ m)
      simp [splitNl, hc, ih ht]

theorem splitNl_append {a : Str} (b : Str) (h : '\n' ∉ a) :
    splitNl (a ++ '\n' :: b) = a :: splitNl b := by
  induction a with
  | nil => simp [splitNl]
  | cons c t ih =>
      have hc : c ≠ '\n' := fun e => h (e ▸ List.mem_cons_self c t)
      have ht : '\n' ∉ t := fun m => h (List.mem_cons_of_mem _ m)
      simp [splitNl, hc, ih ht]

/-- A newline-free needle is a prefix of `s` exactly when it is a prefix
of the first line of `s`. -/
theorem isPrefixOf_headD (n : Str) (hnl : '\n' ∉ n) :
    ∀ s : Str, n.isPrefixOf ((splitNl s).headD []) = n.isPrefixOf s := by
  induction n with
  | nil =>
      intro s
      have hnil : ∀ y : Str, List.isPrefixOf [] y = true := by
        intro y; cases y <;> rfl
      rw [hnil, hnil]
  | cons c n' ih =>
      intro s
      have hc : c ≠ '\n' := fun e => hnl (e ▸ List.mem_cons_self c n')
      have hn' : '\n' ∉ n' := fun m => hnl (List.mem_cons_of_mem _ m)
      cases s with
      | nil => rfl
      | cons d t =>
          by_cases hd : d = '\n'
          · subst hd
            have h1 : (splitNl ('\n' :: t)).headD [] = [] := by
              simp [splitNl]
            rw [h1, List.isPrefixOf_cons₂]
            have h2 : (c :: n').isPrefixOf ([] : Str) = false := rfl
            rw [h2]
            simp [hc]
          · have h1 : (splitNl (d :: t)).headD [] = d :: (splitNl t).headD [] := by
              simp [splitNl, hd]
            rw [h1, List.isPrefixOf_cons₂, List.isPrefixOf_cons₂, ih hn' t]

/-- A nonempty newline-free needle occurs in `s` exactly when it occurs
in one of the lines of `s`. -/
theorem hasSub_splitNl (n : Str) (hne : n ≠ []) (hnl : '\n' ∉ n) :
    ∀ s : Str, (splitNl s).any (hasSub n) = hasSub n s := by
  intro s
  induction s with
  | nil => simp [splitNl, hasSub]
  | cons d t ih =>
      obtain ⟨c, n', rfl⟩ : ∃ c n', n = c :: n' := by
        cases n with
        | nil => exact absurd rfl hne
        | cons c n' => exact ⟨c, n', rfl⟩
      have hc : c ≠ '\n' := fun e => hnl (e ▸ List.mem_cons_self c n')
      by_cases hd : d = '\n'
      · subst hd
        have h1 : splitNl ('\n' :: t) = [] :: splitNl t := by
          simp [splitNl]
        rw [h1, List.any_cons, ih]
        have h2 : hasSub (c :: n') [] = false := rfl
        have h3 : (c :: n').isPrefixOf ('\n' :: t) = false := by
          rw [List.isPrefixOf_cons₂]
          simp [hc]
        simp only [hasSub, h2, h3, Bool.false_or, List.isEmpty_cons]
      · obtain ⟨h0, tl, hsp⟩ : ∃ h0 tl, splitNl t = h0 :: tl := by
          cases hh : splitNl t with
          | nil => exact absurd hh (splitNl_ne_nil t)
          | cons a b => exact ⟨a, b, rfl⟩
        have h1 : splitNl (d :: t) = (d :: h0) :: tl := by
          simp [splitNl, hd, hsp]
        have hhead : (c :: n').isPrefixOf (d :: h0) =
            (c :: n').isPrefixOf (d :: t) := by
          have hh := isPrefixOf_headD (c :: n') hnl (d :: t)
          rw [show (splitNl (d :: t)).headD [] = d :: h0 by
            rw [h1]; exact List.headD_cons] at hh
          exact hh
        rw [hsp] at ih
        rw [h1, List.any_cons]
        simp only [hasSub, List.any_cons] at ih ⊢
        rw [hhead, Bool.or_assoc, ih]

/-- `List.any` distributes over a pointwise disjunction. -/
theorem any_orFn {α : Type} (l : List α) (f g : α → Bool) :
    l.any (fun x => f x || g x) = (l.any f || l.any g) := by
  induction l with
  | nil => rfl
  | cons a t ih =>
      simp only [List.any_cons, ih]
      cases f a <;> cases g a <;> simp

/-- The presence heuristic of the source, computed on the lines of `t`,
agrees with the spec's whole-text reading. -/
theorem hasTestOutput_eq (t : Str) :
    RunTest.hasTestOutput (splitNl t) = specHeuristicFired t := by
  have e : ∀ n : Str, n ≠ [] → '\n' ∉ n →
      ((∃ x ∈ splitNl t, hasSub n x = true) ↔ hasSub n t = true) := by
    intro n hne hnl
    rw [← List.any_eq_true, hasSub_splitNl n hne hnl t]
  have e1 := e "test".toList (by decide) (by decide)
  have e2 := e "describe".toList (by decide) (by decide)
  have e3 := e "expect".toList (by decide) (by decide)
  have e4 := e "passed".toList (by decide) (by decide)
  have e5 := e "failed".toList (by decide) (by decide)
  rw [Bool.eq_iff_iff]
  unfold RunTest.hasTestOutput specHeuristicFired
  simp only [List.any_eq_true, Bool.or_eq_true]
  constructor
  · rintro ⟨x, hx, ((((h | h) | h) | h) | h)⟩
    · exact Or.inl (Or.inl (Or.inl (Or.inl (e1.mp ⟨x, hx, h⟩))))
    · exact Or.inl (Or.inl (Or.inl (Or.inr (e2.mp ⟨x, hx, h⟩))))
    · exact Or.inl (Or.inl (Or.inr (e3.mp ⟨x, hx, h⟩)))
    · exact Or.inl (Or.inr (e4.mp ⟨x, hx, h⟩))
    · exact Or.inr (e5.mp ⟨x, hx, h⟩)
  · rintro ((((h | h) | h) | h) | h)
    · obtain ⟨x, hx, hh⟩ := e1.mpr h
      exact ⟨x, hx, Or.inl (Or.inl (Or.inl (Or.inl hh)))⟩
    · obtain ⟨x, hx, hh⟩ := e2.mpr h
      exact ⟨x, hx, Or.inl (Or.inl (Or.inl (Or.inr hh)))⟩
    · obtain ⟨x, hx, hh⟩ := e3.mpr h
      exact ⟨x, hx, Or.inl (Or.inl (Or.inr hh))⟩
    · obtain ⟨x, hx, hh⟩ := e4.mpr h
      exact ⟨x, hx, Or.inl (Or.inr hh)⟩
    · obtain ⟨x, hx, hh⟩ := e5.mpr h
      exact ⟨x, hx, Or.inr hh⟩

/-! ### Claims -/

/-- Claim C1, counterexample: on the single-line input
`"[1/2] [chromium] › tests/a.spec.ts:3:5 › My Test (120ms)\n"` the
parser does **not** produce a record with `testName = "My Test"` and
`duration = "120ms"`: the lazy title group `(.*?)$` of the test-start
regexp extends to the end of the line, so the parenthesized duration
stays inside the title and the duration field keeps its default. -/
theorem c1_counterexample :
    (RunTest.parseTestResults
        "[1/2] [chromium] › tests/a.spec.ts:3:5 › My Test (120ms)\n".toList).results.map
      (fun r => r.testName) ≠ ["My Test".toList] ∧
    (RunTest.parseTestResults
        "[1/2] [chromium] › tests/a.spec.ts:3:5 › My Test (120ms)\n".toList).results.map
      (fun r => r.duration) ≠ ["120ms".toList] := by
  decide

/-- Claim C1, amended: the same input yields exactly one record with
`sourceFile = "a.spec.ts"`, status passed and retries 0, but with
`testName = "My Test (120ms)"` (duration included in the title) and
`duration = "0ms"` (the default; the test-start branch consumes the
line before the duration branch can see it). -/
theorem c1_scenario_record :
    RunTest.parseTestResults
        "[1/2] [chromium] › tests/a.spec.ts:3:5 › My Test (120ms)\n".toList =
      { passed := true
        results := [{ file := "a.spec.ts".toList
                      testName := "My Test (120ms)".toList
                      status := RunTest.Status.passed
                      duration := "0ms".toList
                      error := none
                      retries := some 0
                      browserName := some "chromium".toList }] } := by
  decide

/-- Claim C2, counterexample: on the input `"te\u0000st"` the parser
returns `overallPassed = true`, yet the *raw* input contains none of the
five presence-heuristic tokens (the NUL splits `"test"`), so the claimed
right-hand side is false.  The source performs both substring checks on
the *sanitized* text, which here is `"test"`. -/
theorem c2_counterexample :
    (RunTest.parseTestResults "te\x00st".toList).passed = true ∧
    specOverallPassed "te\x00st".toList = false := by
  decide

/-- Claim C2, amended: for every input string `s`, `overallPassed` is
true iff the **sanitized** output contains no case-insensitive
occurrence of "failed", "error" or "timeout" and the presence heuristic
fired on the sanitized output (whole-text containment of one of the five
case-sensitive tokens, which agrees with the per-line check of the
source because the tokens contain no newline). -/
theorem c2_overall_passed_iff (s : Str) :
    (RunTest.parseTestResults s).passed =
      specOverallPassed (RunTest.sanitizeString s) := by
  have hh := hasTestOutput_eq (RunTest.sanitizeString s)
  unfold specOverallPassed
  simp only [RunTest.parseTestResults]
  by_cases hb : RunTest.hasTestOutput (splitNl (RunTest.sanitizeString s)) = true
  · rw [hh] at hb
    simp only [hh, hb, if_true, Bool.and_true]
    split <;> rfl
  · have hb' : RunTest.hasTestOutput (splitNl (RunTest.sanitizeString s)) = false :=
      Bool.eq_false_iff.mpr hb
    rw [hh] at hb'
    simp [hh, hb']

/-- Claim C3: `parse` is total — it returns a `RunResult` for every
input string (every partial operation of the source is modelled with
total semantics, so the embedding is a total function); in particular
the empty string yields the empty result. -/
theorem c3_parse_total :
    (∀ s : Str, ∃ r : RunTest.RunResult, RunTest.parseTestResults s = r) ∧
    RunTest.parseTestResults [] = { passed := false, results := [] } :=
  ⟨fun s => ⟨RunTest.parseTestResults s, rfl⟩, by decide⟩

/-- Claim C5, counterexample: `sanitizeString` leaves the input
`"\t\r￾"` unchanged, although it contains two C0 control characters
other than newline (tab and carriage return) and a Unicode non-character
(U+FFFE): the replace ranges `\u0000-\u0008\u000B-\u000C\u000E-\u001F`
skip 0x9/0xD and no range covers non-characters. -/
theorem c5_counterexample :
    RunTest.sanitizeString ['\t', '\r', '￾'] = ['\t', '\r', '￾'] ∧
    specSanitizedOK (RunTest.sanitizeString ['\t', '\r', '￾']) = false := by
  decide

/-- Claim C5, amended: for every input, `sanitizeString` output contains
no U+0000–U+0008, no U+000B, no U+000C, no U+000E–U+001F and no
U+007F–U+009F — i.e. no C0 control other than tab, newline and carriage
return and no C1 control (DEL included); Unicode non-characters are not
removed. -/
theorem c5_sanitize_removes_controls (s : Str) :
    (RunTest.sanitizeString s).all (fun c =>
      !(cp c ≤ 0x8) && !(cp c == 0xB) && !(cp c == 0xC) &&
      !(0xE ≤ cp c && cp c ≤ 0x1F) && !(0x7F ≤ cp c && cp c ≤ 0x9F)) = true := by
  rw [sanitize_eq_filter, List.all_eq_true]
  intro c hc
  have hk := (List.mem_filter.mp hc).2
  unfold RunTest.sanKeep at hk
  simp only [Bool.and_eq_true, Bool.not_eq_true', Bool.or_eq_false_iff,
    decide_eq_false_iff_not, decide_eq_true_eq, Bool.and_eq_false_iff,
    beq_eq_false_iff_ne, ne_eq] at hk ⊢
  omega

/-- Claim C8: `sanitizeString` is idempotent (it is a character
filter). -/
theorem c8_sanitize_idem (s : Str) :
    RunTest.sanitizeString (RunTest.sanitizeString s) = RunTest.sanitizeString s := by
  rw [sanitize_eq_filter (RunTest.sanitizeString s), sanitize_eq_filter s,
      List.filter_filter]
  simp only [Bool.and_self]

/-- Claim C9: the aggregate verdict can disagree with the record
statuses: on a test-start line followed by a "Timed out" line the sole
committed record is `timedOut`, while `overallPassed = true` (lowercase
"timed out" does not contain the substring "timeout"). -/
theorem c9_aggregate_disagrees :
    (RunTest.parseTestResults
        "[1/2] [chromium] › tests/a.spec.ts:3:5 › T\nTimed out".toList).passed = true ∧
    (RunTest.parseTestResults
        "[1/2] [chromium] › tests/a.spec.ts:3:5 › T\nTimed out".toList).results.map
      (fun r => r.status) = [RunTest.Status.timedOut] := by
  decide

/-- Claim C10, counterexample: the input `"te\u0000st"` contains none of
the five recognizable tokens, yet `parse` returns a non-empty record
list and `overallPassed = true`, because the presence heuristic runs on
the sanitized text `"test"`. -/
theorem c10_counterexample :
    specHeuristicFired "te\x00st".toList = false ∧
    (RunTest.parseTestResults "te\x00st".toList).results ≠ [] ∧
    (RunTest.parseTestResults "te\x00st".toList).passed = true := by
  decide

/-- Claim C10, amended: for every input whose **sanitized** form
contains none of the five tokens, `parse` returns the empty record list
and `overallPassed = false`. -/
theorem c10_no_tokens_empty (s : Str)
    (h : specHeuristicFired (RunTest.sanitizeString s) = false) :
    RunTest.parseTestResults s = { passed := false, results := [] } := by
  have hh := hasTestOutput_eq (RunTest.sanitizeString s)
  simp only [RunTest.parseTestResults]
  rw [hh, h]
  simp

/-- Witness for C10 at the spec's own example input `"hello world"`. -/
theorem c10_no_tokens_empty_witness :
    RunTest.parseTestResults "hello world".toList =
      { passed := false, results := [] } :=
  c10_no_tokens_empty _ (by decide)

/-- Claim C4, counterexample: in a reachable scan state with an open
record and a non-empty error buffer (after an `"Error: x"` line), a line
containing "Timed out" is captured by the higher-priority error-fragment
branch (`currentError` is truthy): the record ends `failed` with the
line appended to the error text, not `timedOut` with the fixed
message. -/
theorem c4_counterexample :
    ((RunTest.lineStep
        { results := []
          currentError := "Error: x\n".toList
          currentTest := some { file := "a.spec.ts".toList
                                testName := "T".toList
                                status := RunTest.Status.failed
                                duration := "0ms".toList
                                error := some "Error: x".toList
                                retries := some 0
                                browserName := some "chromium".toList } }
        "Timed out".toList).currentTest.map (fun t => t.status) =
      some RunTest.Status.failed) ∧
    ((RunTest.lineStep
        { results := []
          currentError := "Error: x\n".toList
          currentTest := some { file := "a.spec.ts".toList
                                testName := "T".toList
                                status := RunTest.Status.failed
                                duration := "0ms".toList
                                error := some "Error: x".toList
                                retries := some 0
                                browserName := some "chromium".toList } }
        "Timed out".toList).currentTest.map (fun t => t.error) =
      some (some "Error: x\nTimed out".toList)) ∧
    RunTest.Status.failed ≠ RunTest.Status.timedOut := by
  decide

/-- Claim C4, amended: a line containing "Timed out" that reaches the
timeout branch — it matches neither the test-start nor the duration
regexp, contains neither "retry #" nor "Error:" nor "expect(", and the
accumulated error buffer is empty — sets the open record's status to
`timedOut` and its error to the fixed message; with no open record such
a line leaves the state unchanged. -/
theorem c4_timeout_line (st : RunTest.ScanSt) (line : Str)
    (h1 : reMatch RunTest.testStartToks line = none)
    (h2 : hasSub "retry #".toList line = false)
    (h3 : reMatch RunTest.durToks line = none)
    (h4 : hasSub "Error:".toList line = false)
    (h5 : hasSub "expect(".toList line = false)
    (h6 : st.currentError = [])
    (h7 : hasSub "Timed out".toList line = true) :
    (∀ t, st.currentTest = some t →
        RunTest.lineStep st line =
          { st with currentTest := some { t with status := RunTest.Status.timedOut
                                                 error := some RunTest.timeoutMsg } }) ∧
    (st.currentTest = none → RunTest.lineStep st line = st) := by
  constructor
  · intro t hct
    have h2' : hasSub ['r', 'e', 't', 'r', 'y', ' ', '#'] line = false := h2
    have h4' : hasSub ['E', 'r', 'r', 'o', 'r', ':'] line = false := h4
    have h5' : hasSub ['e', 'x', 'p', 'e', 'c', 't', '('] line = false := h5
    have h7' : hasSub ['T', 'i', 'm', 'e', 'd', ' ', 'o', 'u', 't'] line = true := h7
    unfold RunTest.lineStep
    simp [h1, h2, h2', h3, h4, h4', h5, h5', h6, h7, h7', hct]
  · intro hct
    unfold RunTest.lineStep
    simp [h1, h3, hct]

/-- Witness for C4: the plain line "Timed out" against a scan state with
an open freshly-started record and empty error buffer. -/
theorem c4_timeout_line_witness :
    RunTest.lineStep
        { results := []
          currentError := []
          currentTest := some { file := "a.spec.ts".toList
                                testName := "T".toList
                                status := RunTest.Status.passed
                                duration := "0ms".toList
                                error := none
                                retries := some 0
                                browserName := some "chromium".toList } }
        "Timed out".toList =
      { results := []
        currentError := []
        currentTest := some { file := "a.spec.ts".toList
                              testName := "T".toList
                              status := RunTest.Status.timedOut
                              duration := "0ms".toList
                              error := some RunTest.timeoutMsg
                              retries := some 0
                              browserName := some "chromium".toList } } :=
  (c4_timeout_line _ _ (by decide) (by decide) (by decide) (by decide)
      (by decide) rfl (by decide)).1 _ rfl

/-- Claim C6, counterexample: a summary line with the `-` glyph yields a
record with status `pending` (the `TestStatus` union of this variant has
no `skipped` member at all), not `skipped` as claimed; `pending` is a
status distinct from both `passed` and `failed`. -/
theorem c6_counterexample :
    (ListTests.parseTestResults
        "  -  2 [chromium] › tests/b.spec.ts:9:1 › later (3ms)".toList).results.map
      (fun r => r.status) = [ListTests.TStatus.pending] ∧
    ListTests.TStatus.pending ≠ ListTests.TStatus.passed ∧
    ListTests.TStatus.pending ≠ ListTests.TStatus.failed := by
  decide

/-- Claim C6, amended: every line matching the alternate summary-line
grammar immediately commits one record whose final status is determined
by the status glyph alone — `✓` yields `passed`, `✘` yields `failed`,
and `-` yields `pending` (not `skipped`); no later error/timeout/skip
line is consulted. -/
theorem c6_glyph_status (line : Str) (caps : List (Option Str))
    (acc : List ListTests.TestResult × Bool)
    (h : reMatch ListTests.testLineToks line = some caps) :
    ∃ r, ListTests.lineStep acc line =
        (acc.1 ++ [r], ListTests.glyphPassed (getCap caps 0) acc.2) ∧
      r.status = ListTests.glyphStatus (getCap caps 0) ∧
      ListTests.glyphStatus "✓".toList = ListTests.TStatus.passed ∧
      ListTests.glyphStatus "✘".toList = ListTests.TStatus.failed ∧
      ListTests.glyphStatus "-".toList = ListTests.TStatus.pending := by
  unfold ListTests.lineStep
  rw [h]
  exact ⟨_, rfl, rfl, by decide, by decide, by decide⟩

/-- Witness for C6 on a concrete matching `✘` line. -/
theorem c6_glyph_status_witness :
    ∃ r, ListTests.lineStep ([], true)
        "  ✘  2 [chromium] › tests/b.spec.ts:9:1 › boom (3ms)".toList =
        ([] ++ [r],
         ListTests.glyphPassed
           (getCap [some "✘".toList, some "tests/b.spec.ts".toList,
              some "9".toList, some "1".toList, some "boom".toList,
              some "3ms".toList] 0) true) ∧
      r.status = ListTests.glyphStatus
        (getCap [some "✘".toList, some "tests/b.spec.ts".toList,
           some "9".toList, some "1".toList, some "boom".toList,
           some "3ms".toList] 0) ∧
      ListTests.glyphStatus "✓".toList = ListTests.TStatus.passed ∧
      ListTests.glyphStatus "✘".toList = ListTests.TStatus.failed ∧
      ListTests.glyphStatus "-".toList = ListTests.TStatus.pending :=
  c6_glyph_status _ _ ([], true) (by decide)

/-- Claim C7, counterexample: the line `"[1/1] [chromium] › a.b:1:1 › X"`
matches the test-start regexp, yet the claimed input shape built from it
(test-start line, `"retry #1"` line, the same test-start line, end of
input) parses to zero records, not two: the line contains none of the
five presence tokens, so the `hasTestOutput` gate skips the whole
scan loop. -/
theorem c7_counterexample :
    (reMatch RunTest.testStartToks "[1/1] [chromium] › a.b:1:1 › X".toList).isSome = true ∧
    RunTest.parseTestResults
        ("[1/1] [chromium] › a.b:1:1 › X".toList ++
          '\n' :: ("retry #1".toList ++
            '\n' :: "[1/1] [chromium] › a.b:1:1 › X".toList)) =
      { passed := false, results := [] } := by
  decide

/-- Claim C7, amended: for any newline-free, sanitization-invariant
test-start line `L` that trips the presence heuristic (it contains one
of "test", "describe", "expect", "passed", "failed" — without such a
token the `hasTestOutput` gate yields zero records), the input
`L ⧺ "\n" ⧺ "retry #1" ⧺ "\n" ⧺ L` yields exactly two records: the
first is committed at the second test-start with `retries = 1`, the
second at end of input with `retries = 0`. -/
theorem c7_retry_two_records (L : Str) (caps : List (Option Str))
    (h1 : reMatch RunTest.testStartToks L = some caps)
    (h2 : '\n' ∉ L)
    (h3 : ∀ c ∈ L, RunTest.sanKeep c = true)
    (h4 : (hasSub "test".toList L || hasSub "describe".toList L ||
           hasSub "expect".toList L || hasSub "passed".toList L ||
           hasSub "failed".toList L) = true) :
    (RunTest.parseTestResults
        (L ++ '\n' :: ("retry #1".toList ++ '\n' :: L))).results =
      [{ RunTest.mkStartRecord caps with retries := some 1 },
       RunTest.mkStartRecord caps] := by
  have hsan : RunTest.sanitizeString (L ++ '\n' :: ("retry #1".toList ++ '\n' :: L)) =
      L ++ '\n' :: ("retry #1".toList ++ '\n' :: L) := by
    have hone : RunTest.sanKeep '\n' = true := by decide
    have hret : List.filter RunTest.sanKeep "retry #1".toList = "retry #1".toList := by
      decide
    rw [sanitize_eq_filter, List.filter_append, List.filter_eq_self.mpr h3,
        List.filter_cons, if_pos hone, List.filter_append, hret,
        List.filter_cons, if_pos hone, List.filter_eq_self.mpr h3]
  have hlines : splitNl (L ++ '\n' :: ("retry #1".toList ++ '\n' :: L)) =
      [L, "retry #1".toList, L] := by
    rw [splitNl_append _ h2, splitNl_append _ (by decide), splitNl_single h2]
  have hto : RunTest.hasTestOutput [L, "retry #1".toList, L] = true := by
    unfold RunTest.hasTestOutput
    simp only [List.any_cons, List.any_nil, h4, Bool.true_or]
  have hmidStart : reMatch RunTest.testStartToks "retry #1".toList = none := by
    decide
  have s1 : RunTest.lineStep ⟨[], [], none⟩ L =
      ⟨[], [], some (RunTest.mkStartRecord caps)⟩ := by
    unfold RunTest.lineStep
    rw [h1]
  have s2 : RunTest.lineStep ⟨[], [], some (RunTest.mkStartRecord caps)⟩
        "retry #1".toList =
      ⟨[], [], some { RunTest.mkStartRecord caps with retries := some 1 }⟩ := by
    have hret : hasSub ['r', 'e', 't', 'r', 'y', ' ', '#']
        ['r', 'e', 't', 'r', 'y', ' ', '#', '1'] = true := by decide
    unfold RunTest.lineStep
    rw [hmidStart]
    simp [hret, RunTest.mkStartRecord]
  have s3 : RunTest.lineStep
        ⟨[], [], some { RunTest.mkStartRecord caps with retries := some 1 }⟩ L =
      ⟨[{ RunTest.mkStartRecord caps with retries := some 1 }], [],
       some (RunTest.mkStartRecord caps)⟩ := by
    unfold RunTest.lineStep
    rw [h1]
    simp
  simp only [RunTest.parseTestResults]
  rw [hsan, hlines, hto]
  simp only [if_true, List.foldl_cons, List.foldl_nil]
  rw [s1, s2, s3]
  simp

/-- Witness for C7 at the concrete test-start line
`"[1/2] [chromium] › tests/a.spec.ts:3:5 › My Test"`. -/
theorem c7_retry_two_records_witness :
    (RunTest.parseTestResults
        ("[1/2] [chromium] › tests/a.spec.ts:3:5 › My Test".toList ++
          '\n' :: ("retry #1".toList ++
            '\n' :: "[1/2] [chromium] › tests/a.spec.ts:3:5 › My Test".toList))).results =
      [{ RunTest.mkStartRecord
          [some "1/2".toList, some "chromium".toList, some "tests/a.spec.ts".toList,
           some "3".toList, some "5".toList, some "My Test".toList] with
          retries := some 1 },
       RunTest.mkStartRecord
          [some "1/2".toList, some "chromium".toList, some "tests/a.spec.ts".toList,
           some "3".toList, some "5".toList, some "My Test".toList]] :=
  c7_retry_two_records _ _ (by decide) (by decide) (by decide) (by decide)
